import Mathlib

set_option autoImplicit false
set_option maxHeartbeats 1000000

/-!
Verification of the `Dice` entity of `lesson-23-x` (`src/entities/dice.rs`).

Modelling conventions: each `f32` scalar is an exact rational extended with a
NaN element (`F32`); IEEE comparisons involving NaN are `false`, arithmetic
involving NaN yields NaN, and rounding is not modelled (all arithmetic exact).
Half-precision (`f16`) conversion on upload is likewise modelled exactly.
GPU handles (buffers, shader program, textures) are modelled by their contents.
Collaborator interfaces that live outside this file's source (the mesh module,
the selection registry, the debug-line renderer) are modelled from the spec's
description of their interfaces, as noted on each definition.
-/

/-- An `f32` value: NaN or a finite value modelled as an exact rational. -/
inductive F32 where
  | nan : F32
  | fin : ℚ → F32
  deriving DecidableEq

/-- IEEE `<` on `f32`: any comparison involving NaN is false. -/
def F32.lt : F32 → F32 → Bool
  | F32.fin a, F32.fin b => decide (a < b)
  | _, _ => false

/-- IEEE `>` on `f32`: any comparison involving NaN is false. -/
def F32.gt : F32 → F32 → Bool
  | F32.fin a, F32.fin b => decide (a > b)
  | _, _ => false

/-- IEEE `<=` on `f32`: any comparison involving NaN is false. -/
def F32.le : F32 → F32 → Bool
  | F32.fin a, F32.fin b => decide (a ≤ b)
  | _, _ => false

/-- IEEE negation; negation of NaN is NaN. -/
def F32.neg : F32 → F32
  | F32.nan => F32.nan
  | F32.fin a => F32.fin (-a)

/-- IEEE multiplication with NaN propagation (rounding not modelled). -/
def F32.mul : F32 → F32 → F32
  | F32.fin a, F32.fin b => F32.fin (a * b)
  | _, _ => F32.nan

/-- Whether an `F32` is a finite number (not NaN). -/
def F32.isFinite : F32 → Bool
  | F32.nan => false
  | F32.fin _ => true

/-- A 2-component float vector. -/
structure Vec2 where
  x : F32
  y : F32
  deriving DecidableEq

/-- A 3-component float vector. -/
structure Vec3 where
  x : F32
  y : F32
  z : F32
  deriving DecidableEq

/-- A 4-component float vector (used for overlay colors). -/
structure Vec4 where
  x : F32
  y : F32
  z : F32
  w : F32
  deriving DecidableEq

/-- A unit quaternion (components i, j, k, w); never multiplied in this code,
only stored and compared, so no algebra is needed. -/
structure Quat where
  i : F32
  j : F32
  k : F32
  w : F32
  deriving DecidableEq

/-- `na::Isometry3<f32>`: a rigid transform, rotation plus translation. The
dice code only stores, forwards and compares isometries; it never composes
them, so the model needs no isometry algebra. -/
structure Iso where
  translation : Vec3
  rotation : Quat
  deriving DecidableEq

/-- `na::Isometry3::identity()`. -/
def Iso.identity : Iso :=
  { translation := ⟨F32.fin 0, F32.fin 0, F32.fin 0⟩
    rotation := ⟨F32.fin 0, F32.fin 0, F32.fin 0, F32.fin 1⟩ }

/-- Modelled from the spec: the mesh module's `Tangents` attribute record
(only its `tangent` vector is read by the dice code; `Tangents::nans()`
produces component-wise NaN). The mesh module is outside this source tree. -/
structure Tangents where
  tangent : Vec3
  deriving DecidableEq

/-- Modelled from the spec: `mesh::Tangents::nans()`, the all-NaN fallback
substituted for a missing tangent. -/
def Tangents.nans : Tangents :=
  ⟨⟨F32.nan, F32.nan, F32.nan⟩⟩

/-- Modelled from the spec: a source mesh vertex
`{position: vec3, uv: vec2, tangent: vec3, normal: vec3}` whose uv, tangent
and normal are each optional. -/
structure MeshVertex where
  pos : Vec3
  uv : Option Vec2
  tangents : Option Tangents
  normal : Option Vec3
  deriving DecidableEq

/-- Modelled from the spec: a mesh as handed over by the external OBJ loader:
the vertices belonging to one material, the material index the mesh refers
to, and its flattened triangle index buffer. -/
structure Mesh where
  materialIndex : Option Nat
  vertices : List MeshVertex
  triangleIndices : List Nat
  deriving DecidableEq

/-- Modelled from the spec: an imported material as handed over by the OBJ
loader; only the two texture paths are read by the dice code. -/
structure ObjMaterial where
  diffuseMap : Option String
  bumpMap : Option String
  deriving DecidableEq

/-- Modelled from the spec: the result of `res.load_obj`. -/
structure ImportedModels where
  meshes : List Mesh
  materials : List ObjMaterial
  deriving DecidableEq

/-- The GPU vertex record of `dice_material_mesh::Vertex`
(`pos: f32_f32_f32, uv: f16_f16, t: f32_f32_f32, n: f32_f32_f32`);
the half-precision uv is modelled exactly. -/
structure GpuVertex where
  pos : Vec3
  uv : Vec2
  t : Vec3
  n : Vec3
  deriving DecidableEq

/-- One diagnostic message category printed during vertex upload. -/
inductive LogMsg where
  | missingTangent
  | missingUv
  | missingNormal
  deriving DecidableEq

/-- The body of the per-vertex closure in `Dice::new` building `vbo_data`:
substitute `Tangents::nans()` for a missing tangent, `(0,0)` for a missing
uv, `(0,0,0)` for a missing normal, log one message per missing attribute,
and emit the GPU record with the uv's vertical component negated. -/
def uploadVertex (v : MeshVertex) : GpuVertex × List LogMsg :=
  let tvl : Tangents × List LogMsg :=
    match v.tangents with
    | some tv => (tv, [])
    | none => (Tangents.nans, [LogMsg.missingTangent])
  let uvl : Vec2 × List LogMsg :=
    match v.uv with
    | some uv => (uv, [])
    | none => (⟨F32.fin 0, F32.fin 0⟩, [LogMsg.missingUv])
  let nl : Vec3 × List LogMsg :=
    match v.normal with
    | some n => (n, [])
    | none => (⟨F32.fin 0, F32.fin 0, F32.fin 0⟩, [LogMsg.missingNormal])
  (⟨v.pos, ⟨uvl.1.x, uvl.1.y.neg⟩, tvl.1.tangent, nl.1⟩,
    tvl.2 ++ uvl.2 ++ nl.2)

/-- The `mesh.vertices ... map ... collect` pipeline of `Dice::new`: one GPU
record per source vertex in order, with the diagnostics accumulated in
emission order. -/
def uploadVertices : List MeshVertex → List GpuVertex × List LogMsg
  | [] => ([], [])
  | v :: rest =>
    let hd := uploadVertex v
    let tl := uploadVertices rest
    (hd.1 :: tl.1, hd.2 ++ tl.2)

/-- A selectable-volume bounding box (`ncollide3d` AABB): component-wise
minima and maxima. -/
structure AABB where
  mins : Vec3
  maxs : Vec3
  deriving DecidableEq

/-- `AABB::new(mins, maxs)`. -/
def AABB.new (mins maxs : Vec3) : AABB :=
  ⟨mins, maxs⟩

namespace selection

/-- A queued selection action: `Click` or `Drag { new_isometry }`. -/
inductive Action where
  | click
  | drag (newIsometry : Iso)
  deriving DecidableEq

end selection

/-- Modelled from the spec: the per-volume handle returned by the selection
registry's `selectable(local_bounding_box, initial_transform)`. It carries
the registered local box, its current world isometry, and the FIFO queue of
pending actions filled by the external picking system (empty at
registration). The registry itself is outside this source tree. -/
structure SelectableAABB where
  aabb : AABB
  isometry : Iso
  pendingActions : List selection.Action
  deriving DecidableEq

/-- `SelectableAABB::update_isometry`: repose the registered volume. -/
def SelectableAABB.update_isometry (s : SelectableAABB) (isometry : Iso) : SelectableAABB :=
  { s with isometry := isometry }

/-- The accumulator of the bounding-volume scan in `Dice::new`: six running
optional extrema. -/
structure MinMaxAcc where
  minX : Option F32
  minY : Option F32
  minZ : Option F32
  maxX : Option F32
  maxY : Option F32
  maxZ : Option F32
  deriving DecidableEq

/-- `fn update_min` of `Dice::new`: update a running optional minimum. -/
def update_min (val : Option F32) (new : F32) : Option F32 :=
  match val with
  | none => some new
  | some v => if F32.lt new v then some new else some v

/-- `fn update_max` of `Dice::new`: update a running optional maximum. -/
def update_max (val : Option F32) (new : F32) : Option F32 :=
  match val with
  | none => some new
  | some v => if F32.gt new v then some new else some v

/-- One iteration of the `for v in &vbo_data` scan in `Dice::new`. -/
def scanStep (acc : MinMaxAcc) (v : GpuVertex) : MinMaxAcc :=
  { minX := update_min acc.minX v.pos.x
    minY := update_min acc.minY v.pos.y
    minZ := update_min acc.minZ v.pos.z
    maxX := update_max acc.maxX v.pos.x
    maxY := update_max acc.maxY v.pos.y
    maxZ := update_max acc.maxZ v.pos.z }

/-- The full bounding-volume scan of `Dice::new`, starting from six `None`s. -/
def scanVertices (vboData : List GpuVertex) : MinMaxAcc :=
  vboData.foldl scanStep ⟨none, none, none, none, none, none⟩

/-- The `selectable_aabb` initializer block of `Dice::new`: scan the uploaded
vertices; if all six extrema exist, register the box with the selection
registry at the initial isometry (queue starts empty), else no volume. -/
def mkSelectable (vboData : List GpuVertex) (initialIsometry : Iso) : Option SelectableAABB :=
  let acc := scanVertices vboData
  match acc.minX, acc.minY, acc.minZ, acc.maxX, acc.maxY, acc.maxZ with
  | some mnx, some mny, some mnz, some mxx, some mxy, some mxz =>
    some { aabb := AABB.new ⟨mnx, mny, mnz⟩ ⟨mxx, mxy, mxz⟩
           isometry := initialIsometry
           pendingActions := [] }
  | _, _, _, _, _, _ => none

/-- One debug-overlay segment `(origin, direction, color)`. -/
structure Marker where
  origin : Vec3
  direction : Vec3
  color : Vec4
  deriving DecidableEq

/-- The marker sequence passed to `debug_lines.ray_markers` in `Dice::new`:
for every GPU vertex a blue segment along `0.2 * normal`, then for every GPU
vertex a green segment along `0.2 * tangent` (the two maps chained). -/
def markersOf (vboData : List GpuVertex) : List Marker :=
  (vboData.map fun v =>
    { origin := v.pos
      direction := ⟨v.n.x.mul (F32.fin (1/5)), v.n.y.mul (F32.fin (1/5)), v.n.z.mul (F32.fin (1/5))⟩
      color := ⟨F32.fin 0, F32.fin 0, F32.fin 1, F32.fin 1⟩ }) ++
  (vboData.map fun v =>
    { origin := v.pos
      direction := ⟨v.t.x.mul (F32.fin (1/5)), v.t.y.mul (F32.fin (1/5)), v.t.z.mul (F32.fin (1/5))⟩
      color := ⟨F32.fin 0, F32.fin 1, F32.fin 0, F32.fin 1⟩ })

/-- Modelled from the spec: the handle returned by the external debug-line
renderer's `ray_markers(initial_transform, segments)`: the fixed segment set
plus its current pose. -/
structure RayMarkers where
  isometry : Iso
  markers : List Marker
  deriving DecidableEq

/-- `RayMarkers::update_isometry`: repose the overlay, segments unchanged. -/
def RayMarkers.update_isometry (r : RayMarkers) (isometry : Iso) : RayMarkers :=
  { r with isometry := isometry }

/-- A shader program, modelled by its table of resolvable uniform names. -/
structure Program where
  uniforms : List (String × Int)
  deriving DecidableEq

/-- `Program::get_uniform_location`. -/
def Program.getUniformLocation (p : Program) (name : String) : Option Int :=
  p.uniforms.lookup name

/-- `dice_material::Material`: the five optional uniform handles. -/
structure DiceMaterial where
  textureLocation : Option Int
  textureNormalsLocation : Option Int
  programViewprojectionLocation : Option Int
  programModelLocation : Option Int
  cameraPosLocation : Option Int
  deriving DecidableEq

/-- `dice_material::Material::load_for`: resolve each named uniform once. -/
def DiceMaterial.loadFor (program : Program) : DiceMaterial :=
  { textureLocation := program.getUniformLocation "Texture"
    textureNormalsLocation := program.getUniformLocation "Normals"
    programViewprojectionLocation := program.getUniformLocation "ViewProjection"
    programModelLocation := program.getUniformLocation "Model"
    cameraPosLocation := program.getUniformLocation "CameraPos" }

/-- A loaded texture, modelled by an opaque numeric handle. -/
structure Texture where
  id : Nat
  deriving DecidableEq

/-- The `as i32` cast applied to `ebo_data.len()` in `Dice::new`: the
`usize` length is truncated to its low 32 bits and reinterpreted as a
signed two's-complement 32-bit value. -/
def usizeAsI32 (n : Nat) : Int :=
  if n % 2 ^ 32 < 2 ^ 31 then ((n % 2 ^ 32 : Nat) : Int)
  else ((n % 2 ^ 32 : Nat) : Int) - 2 ^ 32

/-- The `Dice` entity: its single mutable transform, the loaded GPU
resources (buffers modelled by their uploaded contents), the overlay handle
and the optional selectable volume. -/
structure Dice where
  transform : Iso
  program : Program
  texture : Option Texture
  textureNormals : Option Texture
  material : DiceMaterial
  vboData : List GpuVertex
  eboData : List Nat
  indexCount : Int
  debugTangentNormals : RayMarkers
  selectableAabb : Option SelectableAABB
  deriving DecidableEq

/-- An entity-construction failure propagated with `?` in `Dice::new`. -/
inductive ConstructErr where
  | programLoad (msg : String)
  | loadObj (msg : String)
  deriving DecidableEq

/-- The outcome of `Dice::new`: `Ok` with the entity and the upload
diagnostics, an error value returned to the caller, or a panic (the
`expect` abort path). -/
inductive NewResult where
  | ok (d : Dice) (logs : List LogMsg)
  | err (e : ConstructErr)
  | panicked (msg : String)
  deriving DecidableEq

/-- `Dice::new`. Collaborator results are inputs: the shader-program load,
the OBJ load, and the texture loader (already including the log-and-drop
`.map_err(...).ok()` error handling as `Except`, converted at use site). -/
def Dice.new (programRes : Except ConstructErr Program)
    (objRes : Except ConstructErr ImportedModels)
    (loadTexture : String → Except String Texture) : NewResult :=
  match programRes with
  | Except.error e => NewResult.err e
  | Except.ok program =>
    let pMaterial := DiceMaterial.loadFor program
    match objRes with
    | Except.error e => NewResult.err e
    | Except.ok importedModels =>
      let material := importedModels.materials.head?
      let materialIndex := material.map fun _ => 0
      let texture := material.bind fun m =>
        m.diffuseMap.bind fun resourcePath => (loadTexture resourcePath).toOption
      let textureNormals := material.bind fun m =>
        m.bumpMap.bind fun resourcePath => (loadTexture resourcePath).toOption
      match (importedModels.meshes.filter fun model => model.materialIndex == materialIndex).head? with
      | none => NewResult.panicked "expected obj file to contain a mesh"
      | some mesh =>
        let upload := uploadVertices mesh.vertices
        let eboData := mesh.triangleIndices
        let initialIsometry := Iso.identity
        NewResult.ok
          { transform := initialIsometry
            program := program
            texture := texture
            textureNormals := textureNormals
            material := pMaterial
            vboData := upload.1
            eboData := eboData
            indexCount := usizeAsI32 eboData.length
            debugTangentNormals := { isometry := initialIsometry, markers := markersOf upload.1 }
            selectableAabb := mkSelectable upload.1 initialIsometry }
          upload.2

/-- `Dice::set_transform`: store the new transform, repose the selectable
volume when one exists, repose the debug overlay. -/
def Dice.set_transform (d : Dice) (isometry : Iso) : Dice :=
  { d with
    transform := isometry
    selectableAabb := d.selectableAabb.map fun selectable => selectable.update_isometry isometry
    debugTangentNormals := d.debugTangentNormals.update_isometry isometry }

/-- An observable effect of one `update` tick, in emission order. -/
inductive Event where
  | selectNotified
  | transformSet (isometry : Iso)
  deriving DecidableEq

/-- The `self.selectable_aabb.as_ref().and_then(|s| s.drain_pending_action())`
step of the drain loop: pop the front pending action, if any, from the
selectable volume's FIFO queue. -/
def Dice.drain_pending_action (d : Dice) : Option selection.Action × Dice :=
  match d.selectableAabb with
  | none => (none, d)
  | some s =>
    match s.pendingActions with
    | [] => (none, d)
    | a :: rest => (some a, { d with selectableAabb := some { s with pendingActions := rest } })

/-- The body of the drain loop's `match` on a popped action: `Click` fires
`select()` on the selection registry (when the volume exists), `Drag`
applies `set_transform`. -/
def Dice.applyAction (d : Dice) (a : selection.Action) : Dice × List Event :=
  match a with
  | selection.Action.click =>
    (d, match d.selectableAabb with
        | some _ => [Event.selectNotified]
        | none => [])
  | selection.Action.drag newIsometry =>
    (d.set_transform newIsometry, [Event.transformSet newIsometry])

/-- The number of actions currently queued on the entity's selectable volume
(zero when no volume exists): the drain loop's termination measure. -/
def Dice.queueLength (d : Dice) : Nat :=
  match d.selectableAabb with
  | none => 0
  | some s => s.pendingActions.length

/-- The `loop` of `Dice::update`, fuelled: each round pops at most one
pending action and applies it; a round with no pending action breaks. The
source loop is unbounded; `queueLength` fuel is enough (proved below), so
`Dice.update` runs it with exactly that fuel. -/
def Dice.updateGo : Nat → Dice → List Event → Dice × List Event
  | 0, d, acc => (d, acc)
  | Nat.succ n, d, acc =>
    match d.drain_pending_action with
    | (none, d1) => (d1, acc)
    | (some a, d1) =>
      let r := d1.applyAction a
      Dice.updateGo n r.1 (acc ++ r.2)

/-- `Dice::update`: drain and apply all queued selection actions, returning
the mutated entity and the trace of observable effects in order. -/
def Dice.update (d : Dice) (_delta : F32) : Dice × List Event :=
  Dice.updateGo d.queueLength d []

/-- The draw call issued by `Dice::render`, modelled by its entity-owned
inputs: the model transform bound for the draw and the index count drawn. -/
structure RenderCall where
  modelTransform : Iso
  indexCount : Int
  deriving DecidableEq

/-- `Dice::render`: bind the current transform as the model matrix and draw
`index_count` indices; total, no failure path. -/
def Dice.render (d : Dice) : RenderCall :=
  { modelTransform := d.transform, indexCount := d.indexCount }

/-- The three transform-dependent views agree: overlay pose and (when a
volume exists) bounding-volume pose equal the stored render transform. -/
def Dice.poseSync (d : Dice) : Prop :=
  d.debugTangentNormals.isometry = d.transform ∧
  match d.selectableAabb with
  | none => True
  | some s => s.isometry = d.transform

/-- One externally invoked mutation of the entity: an update tick or a call
to `set_transform`. -/
inductive Op where
  | update (delta : F32)
  | setT (isometry : Iso)

/-- Run one operation, discarding the event trace. -/
def applyOp (d : Dice) : Op → Dice
  | Op.update delta => (d.update delta).1
  | Op.setT isometry => d.set_transform isometry

/-- Run a sequence of operations left to right. -/
def applyOps (d : Dice) (ops : List Op) : Dice :=
  ops.foldl applyOp d

/-- The constructed entity's optional selectable volume, when construction
succeeded. -/
def NewResult.selectableAabbOf : NewResult → Option (Option SelectableAABB)
  | NewResult.ok d _ => some d.selectableAabb
  | _ => none

/-- The constructed entity's stored transform, when construction succeeded. -/
def NewResult.transformOf : NewResult → Option Iso
  | NewResult.ok d _ => some d.transform
  | _ => none

/-- The constructed entity's overlay pose, when construction succeeded. -/
def NewResult.overlayPoseOf : NewResult → Option Iso
  | NewResult.ok d _ => some d.debugTangentNormals.isometry
  | _ => none

/-- The constructed entity's bounding-volume pose: `none` when construction
failed or no volume exists. -/
def NewResult.selectablePoseOf : NewResult → Option Iso
  | NewResult.ok d _ => d.selectableAabb.map fun s => s.isometry
  | _ => none

/-- The constructed entity's draw call, when construction succeeded. -/
def NewResult.renderOf : NewResult → Option RenderCall
  | NewResult.ok d _ => some d.render
  | _ => none

/-- Whether `Dice::new` returned `Ok`. -/
def NewResult.isOk : NewResult → Bool
  | NewResult.ok _ _ => true
  | _ => false

/-- Whether `Dice::new` returned an error value to the caller. -/
def NewResult.isErr : NewResult → Bool
  | NewResult.err _ => true
  | _ => false

/-- The spec's box validity predicate on a constructed volume: component-wise
`min <= max` under IEEE comparison (false when no volume exists). -/
def minsLeMaxs : Option SelectableAABB → Bool
  | none => false
  | some s =>
    F32.le s.aabb.mins.x s.aabb.maxs.x &&
    F32.le s.aabb.mins.y s.aabb.maxs.y &&
    F32.le s.aabb.mins.z s.aabb.maxs.z

/-- The spec's containment predicate: a position lies component-wise within
the constructed volume's `[min, max]` under IEEE comparison. -/
def posInBox : Option SelectableAABB → Vec3 → Bool
  | none, _ => false
  | some s, p =>
    F32.le s.aabb.mins.x p.x && F32.le p.x s.aabb.maxs.x &&
    F32.le s.aabb.mins.y p.y && F32.le p.y s.aabb.maxs.y &&
    F32.le s.aabb.mins.z p.z && F32.le p.z s.aabb.maxs.z

/-- A concrete isometry (translation by one unit along x). -/
def isoA : Iso :=
  { translation := ⟨F32.fin 1, F32.fin 0, F32.fin 0⟩
    rotation := ⟨F32.fin 0, F32.fin 0, F32.fin 0, F32.fin 1⟩ }

/-- A concrete isometry (translation by two units along x). -/
def isoB : Iso :=
  { translation := ⟨F32.fin 2, F32.fin 0, F32.fin 0⟩
    rotation := ⟨F32.fin 0, F32.fin 0, F32.fin 0, F32.fin 1⟩ }

/-- A concrete unit local bounding box. -/
def exBox : AABB :=
  ⟨⟨F32.fin 0, F32.fin 0, F32.fin 0⟩, ⟨F32.fin 1, F32.fin 1, F32.fin 1⟩⟩

/-- A concrete entity whose selectable volume carries the given action
queue; all poses start at the identity. -/
def exDice (queue : List selection.Action) : Dice :=
  { transform := Iso.identity
    program := ⟨[]⟩
    texture := none
    textureNormals := none
    material := ⟨none, none, none, none, none⟩
    vboData := []
    eboData := []
    indexCount := 0
    debugTangentNormals := { isometry := Iso.identity, markers := [] }
    selectableAabb := some { aabb := exBox, isometry := Iso.identity, pendingActions := queue } }

/-- A concrete entity with no selectable volume. -/
def exDiceNoVol : Dice :=
  { exDice [] with selectableAabb := none }

/-- A concrete mesh vertex with full attributes, missing nothing. -/
def mvFull : MeshVertex :=
  { pos := ⟨F32.fin 0, F32.fin 0, F32.fin 0⟩
    uv := some ⟨F32.fin 0, F32.fin 0⟩
    tangents := some ⟨⟨F32.fin 1, F32.fin 0, F32.fin 0⟩⟩
    normal := some ⟨F32.fin 0, F32.fin 0, F32.fin 1⟩ }

/-- A concrete mesh vertex missing only its tangent. -/
def mvNoTan : MeshVertex :=
  { mvFull with tangents := none }

/-- A concrete mesh vertex missing every optional attribute. -/
def mvAllMissing : MeshVertex :=
  { pos := ⟨F32.fin 0, F32.fin 0, F32.fin 0⟩, uv := none, tangents := none, normal := none }

/-- A concrete shader program resolving no uniforms. -/
def exProgram : Program :=
  ⟨[]⟩

/-- A concrete texture loader that always fails (texture-load failures are
non-fatal for construction). -/
def exLoadTex : String → Except String Texture :=
  fun _ => Except.error "load failed"

/-- A concrete import with no materials but a mesh referring to material 0,
so no mesh matches the selected material index. -/
def imNoMatch : ImportedModels :=
  ⟨[⟨some 0, [], []⟩], []⟩

/-- A concrete import with one material and a mesh referring to material 1,
so again no mesh matches the selected material index. -/
def imNoMatch2 : ImportedModels :=
  ⟨[⟨some 1, [], []⟩], [⟨none, none⟩]⟩

/-- A concrete import whose matching mesh has an empty vertex set. -/
def imEmptyMesh : ImportedModels :=
  ⟨[⟨none, [], []⟩], []⟩

/-- A concrete full-attribute mesh vertex at position (1,0,0). -/
def mvB : MeshVertex :=
  { mvFull with pos := ⟨F32.fin 1, F32.fin 0, F32.fin 0⟩ }

/-- A concrete full-attribute mesh vertex at position (0,1,0). -/
def mvC : MeshVertex :=
  { mvFull with pos := ⟨F32.fin 0, F32.fin 1, F32.fin 0⟩ }

/-- A concrete full-attribute mesh vertex whose x position is NaN. -/
def mvNanPos : MeshVertex :=
  { mvFull with pos := ⟨F32.nan, F32.fin 0, F32.fin 0⟩ }

/-- A concrete import whose matching mesh holds the three-vertex triangle
(0,0,0), (1,0,0), (0,1,0) with full attributes. -/
def imTriangle : ImportedModels :=
  ⟨[⟨none, [mvFull, mvB, mvC], [0, 1, 2]⟩], []⟩

theorem set_transform_poseSync (d : Dice) (T : Iso) : (d.set_transform T).poseSync := by
  cases d with
  | mk tr pr tx tn mat vb eb ic dbg sel =>
    cases sel with
    | none =>
      exact ⟨rfl, trivial⟩
    | some s =>
      exact ⟨rfl, rfl⟩

theorem drain_snd_poseSync (d : Dice) (h : d.poseSync) : d.drain_pending_action.2.poseSync := by
  cases d with
  | mk tr pr tx tn mat vb eb ic dbg sel =>
    cases sel with
    | none => exact h
    | some s =>
      cases hq : s.pendingActions with
      | nil => simpa [Dice.drain_pending_action, hq] using h
      | cons a rest =>
        obtain ⟨h1, h2⟩ := h
        simp only [Dice.drain_pending_action, hq]
        exact ⟨h1, h2⟩

theorem applyAction_fst_poseSync (d : Dice) (a : selection.Action) (h : d.poseSync) :
    (d.applyAction a).1.poseSync := by
  cases a with
  | click => exact h
  | drag iso => exact set_transform_poseSync d iso

theorem updateGo_fst_poseSync (n : Nat) : ∀ (d : Dice) (acc : List Event),
    d.poseSync → (Dice.updateGo n d acc).1.poseSync := by
  induction n with
  | zero => intro d acc h; exact h
  | succ m ih =>
    intro d acc h
    rcases hd : d.drain_pending_action with ⟨oa, d1⟩
    have h1 : d1.poseSync := by
      have := drain_snd_poseSync d h
      rwa [hd] at this
    cases oa with
    | none => simpa [Dice.updateGo, hd] using h1
    | some a =>
      have h2 := applyAction_fst_poseSync d1 a h1
      simpa [Dice.updateGo, hd] using ih _ _ h2

theorem applyOps_poseSync (ops : List Op) : ∀ (d : Dice), d.poseSync → (applyOps d ops).poseSync := by
  induction ops with
  | nil => intro d h; exact h
  | cons op rest ih =>
    intro d h
    have hstep : (applyOp d op).poseSync := by
      cases op with
      | update delta => exact updateGo_fst_poseSync _ d [] h
      | setT iso => exact set_transform_poseSync d iso
    simpa [applyOps, List.foldl] using ih _ hstep

/-- C2: `set_transform(T)` updates the stored transform, the overlay pose
and (when present) the bounding-volume pose together to `T`; consequently
any sequence of `update` and `set_transform` calls keeps the three
transform views in sync. -/
theorem set_transform_syncs_views :
    (∀ (d : Dice) (T : Iso),
      (d.set_transform T).transform = T ∧
      (d.set_transform T).debugTangentNormals.isometry = T ∧
      (d.set_transform T).selectableAabb.map SelectableAABB.isometry
        = d.selectableAabb.map fun _ => T) ∧
    (∀ (d : Dice) (ops : List Op), d.poseSync → (applyOps d ops).poseSync) := by
  constructor
  · intro d T
    refine ⟨rfl, rfl, ?_⟩
    cases hs : d.selectableAabb with
    | none => simp [Dice.set_transform, hs]
    | some s => simp [Dice.set_transform, hs, SelectableAABB.update_isometry]
  · intro d ops h
    exact applyOps_poseSync ops d h

/-- C2 witness: the synchronization theorem applied at a concrete entity, a
concrete transform and a concrete operation sequence. -/
theorem set_transform_syncs_views_witness :
    (((exDice []).set_transform isoA).transform = isoA ∧
      ((exDice []).set_transform isoA).debugTangentNormals.isometry = isoA ∧
      ((exDice []).set_transform isoA).selectableAabb.map SelectableAABB.isometry
        = (exDice []).selectableAabb.map fun _ => isoA) ∧
    ((exDice []).poseSync ∧
      (applyOps (exDice []) [Op.setT isoA, Op.update (F32.fin 0)]).poseSync) :=
  ⟨set_transform_syncs_views.1 (exDice []) isoA,
    ⟨rfl, rfl⟩,
    set_transform_syncs_views.2 (exDice []) [Op.setT isoA, Op.update (F32.fin 0)] ⟨rfl, rfl⟩⟩

/-- C9: `set_transform` is idempotent in its effect: two consecutive calls
with the same `T` leave the entity (stored transform, bounding-volume pose,
overlay pose and all other state) exactly as a single call does. -/
theorem set_transform_idempotent : ∀ (d : Dice) (T : Iso),
    (d.set_transform T).set_transform T = d.set_transform T := by
  intro d T
  cases d with
  | mk tr pr tx tn mat vb eb ic dbg sel =>
    cases sel with
    | none => simp [Dice.set_transform, RayMarkers.update_isometry]
    | some s => simp [Dice.set_transform, RayMarkers.update_isometry, SelectableAABB.update_isometry]

theorem drain_none_of_queueLength_zero (d : Dice) (h : d.queueLength = 0) :
    d.drain_pending_action = (none, d) := by
  cases hs : d.selectableAabb with
  | none => simp [Dice.drain_pending_action, hs]
  | some s =>
    cases hq : s.pendingActions with
    | nil => simp [Dice.drain_pending_action, hs, hq]
    | cons a rest =>
      exfalso
      simp [Dice.queueLength, hs, hq] at h

theorem applyAction_fst_queueLength (d : Dice) (a : selection.Action) :
    (d.applyAction a).1.queueLength = d.queueLength := by
  cases a with
  | click => rfl
  | drag iso =>
    cases d with
    | mk tr pr tx tn mat vb eb ic dbg sel =>
      cases sel with
      | none => rfl
      | some s => rfl

theorem updateGo_stable : ∀ (k n : Nat) (d : Dice) (acc : List Event),
    d.queueLength = k → k ≤ n →
    Dice.updateGo n d acc = Dice.updateGo k d acc := by
  intro k
  induction k with
  | zero =>
    intro n d acc hq _
    cases n with
    | zero => rfl
    | succ m =>
      simp [Dice.updateGo, drain_none_of_queueLength_zero d hq]
  | succ k ih =>
    intro n d acc hq hle
    cases n with
    | zero => exact absurd hle (by omega)
    | succ m =>
      cases hs : d.selectableAabb with
      | none =>
        exfalso
        simp [Dice.queueLength, hs] at hq
      | some s =>
        cases hqa : s.pendingActions with
        | nil =>
          exfalso
          simp [Dice.queueLength, hs, hqa] at hq
        | cons a rest =>
          have hdrain : d.drain_pending_action
              = (some a, { d with selectableAabb := some { s with pendingActions := rest } }) := by
            simp [Dice.drain_pending_action, hs, hqa]
          have hq1 : ({ d with selectableAabb := some { s with pendingActions := rest } } : Dice).queueLength = k := by
            simp [Dice.queueLength, hs, hqa] at hq
            simp [Dice.queueLength]
            omega
          have hq2 : (({ d with selectableAabb := some { s with pendingActions := rest } } : Dice).applyAction a).1.queueLength = k := by
            rw [applyAction_fst_queueLength]
            exact hq1
          have hm : k ≤ m := by omega
          have e1 : Dice.updateGo (m + 1) d acc
              = Dice.updateGo m (({ d with selectableAabb := some { s with pendingActions := rest } } : Dice).applyAction a).1
                  (acc ++ (({ d with selectableAabb := some { s with pendingActions := rest } } : Dice).applyAction a).2) := by
            simp [Dice.updateGo, hdrain]
          have e2 : Dice.updateGo (k + 1) d acc
              = Dice.updateGo k (({ d with selectableAabb := some { s with pendingActions := rest } } : Dice).applyAction a).1
                  (acc ++ (({ d with selectableAabb := some { s with pendingActions := rest } } : Dice).applyAction a).2) := by
            simp [Dice.updateGo, hdrain]
          rw [e1, e2]
          exact ih m _ _ hq2 hm

/-- C8: one `update` call terminates: running the drain loop with any fuel
of at least the queue's length gives the same outcome as running it with
exactly the queue's length (the loop reaches its break), and draining an
empty action queue returns the entity unchanged with no effects. -/
theorem update_terminates :
    (∀ (d : Dice) (n : Nat) (acc : List Event), d.queueLength ≤ n →
      Dice.updateGo n d acc = Dice.updateGo d.queueLength d acc) ∧
    (∀ (d : Dice) (delta : F32), d.queueLength = 0 → d.update delta = (d, [])) := by
  constructor
  · intro d n acc h
    exact updateGo_stable d.queueLength n d acc rfl h
  · intro d delta h
    rw [Dice.update, h]
    rfl

/-- C8 witness: the termination theorem applied with surplus fuel at a
concrete entity, and the empty-queue clause at a concrete volume-free
entity. -/
theorem update_terminates_witness :
    ((exDice [selection.Action.click]).queueLength ≤ 5 ∧
      Dice.updateGo 5 (exDice [selection.Action.click]) []
        = Dice.updateGo (exDice [selection.Action.click]).queueLength (exDice [selection.Action.click]) []) ∧
    (exDiceNoVol.queueLength = 0 ∧ exDiceNoVol.update (F32.fin 0) = (exDiceNoVol, [])) :=
  ⟨⟨by decide, update_terminates.1 (exDice [selection.Action.click]) 5 [] (by decide)⟩,
    ⟨rfl, update_terminates.2 exDiceNoVol (F32.fin 0) rfl⟩⟩

/-- C1: one `update` tick on a queue `[Drag T1, Click, Drag T2]` drains all
three actions in FIFO order: the final stored transform is `T2`, exactly one
`select()` notification fires, and it fires after the first drag is applied
and before the second, leaving the queue empty. -/
theorem dice_update_drains_fifo (d : Dice) (s : SelectableAABB) (T1 T2 : Iso) (delta : F32)
    (hs : d.selectableAabb = some s)
    (hq : s.pendingActions = [selection.Action.drag T1, selection.Action.click, selection.Action.drag T2]) :
    (d.update delta).1.transform = T2 ∧
    (d.update delta).2 = [Event.transformSet T1, Event.selectNotified, Event.transformSet T2] ∧
    (d.update delta).2.count Event.selectNotified = 1 ∧
    (d.update delta).1.queueLength = 0 := by
  cases d with
  | mk tr pr tx tn mat vb eb ic dbg sel =>
    cases s with
    | mk box siso spending =>
      subst hq
      subst hs
      refine ⟨rfl, rfl, ?_, rfl⟩
      rfl

/-- C1 witness: the drain theorem applied at a concrete entity whose queue
holds a drag to `isoA`, a click, and a drag to `isoB`. -/
theorem dice_update_drains_fifo_witness :
    ((exDice [selection.Action.drag isoA, selection.Action.click, selection.Action.drag isoB]).selectableAabb
        = some { aabb := exBox, isometry := Iso.identity
                 pendingActions := [selection.Action.drag isoA, selection.Action.click, selection.Action.drag isoB] } ∧
      ({ aabb := exBox, isometry := Iso.identity
         pendingActions := [selection.Action.drag isoA, selection.Action.click, selection.Action.drag isoB] } : SelectableAABB).pendingActions
        = [selection.Action.drag isoA, selection.Action.click, selection.Action.drag isoB]) ∧
    (((exDice [selection.Action.drag isoA, selection.Action.click, selection.Action.drag isoB]).update (F32.fin 0)).1.transform = isoB ∧
      ((exDice [selection.Action.drag isoA, selection.Action.click, selection.Action.drag isoB]).update (F32.fin 0)).2
        = [Event.transformSet isoA, Event.selectNotified, Event.transformSet isoB] ∧
      ((exDice [selection.Action.drag isoA, selection.Action.click, selection.Action.drag isoB]).update (F32.fin 0)).2.count Event.selectNotified = 1 ∧
      ((exDice [selection.Action.drag isoA, selection.Action.click, selection.Action.drag isoB]).update (F32.fin 0)).1.queueLength = 0) :=
  ⟨⟨rfl, rfl⟩,
    dice_update_drains_fifo _ _ isoA isoB (F32.fin 0) rfl rfl⟩

theorem uploadVertex_counts (v : MeshVertex) :
    (uploadVertex v).2.count LogMsg.missingTangent = (if v.tangents.isNone then 1 else 0) ∧
    (uploadVertex v).2.count LogMsg.missingUv = (if v.uv.isNone then 1 else 0) ∧
    (uploadVertex v).2.count LogMsg.missingNormal = (if v.normal.isNone then 1 else 0) := by
  cases v with
  | mk pos uv tangents normal =>
    cases uv <;> cases tangents <;> cases normal <;>
      simp [uploadVertex, List.count_cons, List.count_nil]

theorem uploadVertices_counts (vs : List MeshVertex) :
    (uploadVertices vs).2.count LogMsg.missingTangent
      = vs.countP (fun v => v.tangents.isNone) ∧
    (uploadVertices vs).2.count LogMsg.missingUv
      = vs.countP (fun v => v.uv.isNone) ∧
    (uploadVertices vs).2.count LogMsg.missingNormal
      = vs.countP (fun v => v.normal.isNone) := by
  induction vs with
  | nil => exact ⟨rfl, rfl, rfl⟩
  | cons v rest ih =>
    obtain ⟨ih1, ih2, ih3⟩ := ih
    obtain ⟨hv1, hv2, hv3⟩ := uploadVertex_counts v
    refine ⟨?_, ?_, ?_⟩ <;>
      simp [uploadVertices, List.count_append, List.countP_cons, ih1, ih2, ih3, hv1, hv2, hv3] <;>
      split <;> omega

/-- C4 counterexample: two vertices both missing their tangent make the
upload log the tangent diagnostic twice — once per affected vertex — so the
category is not logged exactly once. -/
theorem diag_once_per_category_cex :
    (uploadVertices [mvNoTan, mvNoTan]).2 = [LogMsg.missingTangent, LogMsg.missingTangent] ∧
    ¬ (uploadVertices [mvNoTan, mvNoTan]).2.count LogMsg.missingTangent = 1 := by
  decide

/-- C4 (amended): during mesh upload one diagnostic message is logged per
missing-attribute occurrence, not per category: for each category the number
of logged messages equals the number of vertices missing that attribute. -/
theorem diag_once_per_missing_vertex (vs : List MeshVertex) :
    (uploadVertices vs).2.count LogMsg.missingTangent
      = vs.countP (fun v => v.tangents.isNone) ∧
    (uploadVertices vs).2.count LogMsg.missingUv
      = vs.countP (fun v => v.uv.isNone) ∧
    (uploadVertices vs).2.count LogMsg.missingNormal
      = vs.countP (fun v => v.normal.isNone) :=
  uploadVertices_counts vs

theorem uploadVertices_fst (vs : List MeshVertex) :
    (uploadVertices vs).1 = vs.map fun v => (uploadVertex v).1 := by
  induction vs with
  | nil => rfl
  | cons v rest ih => simp [uploadVertices, ih]

/-- C6: mesh upload produces exactly one GPU record per source vertex in
order; per vertex the position is copied, a missing tangent becomes all-NaN,
a missing uv becomes `(0,0)`, a missing normal becomes `(0,0,0)`, a present
uv has its vertical component negated, and an all-attributes-missing mesh
still uploads one record per vertex. -/
theorem upload_one_record_per_vertex :
    (∀ vs : List MeshVertex, (uploadVertices vs).1 = vs.map fun v => (uploadVertex v).1) ∧
    (∀ vs : List MeshVertex, (uploadVertices vs).1.length = vs.length) ∧
    (∀ v : MeshVertex, (uploadVertex v).1.pos = v.pos) ∧
    (∀ v : MeshVertex, v.tangents = none → (uploadVertex v).1.t = ⟨F32.nan, F32.nan, F32.nan⟩) ∧
    (∀ v : MeshVertex, v.uv = none → (uploadVertex v).1.uv = ⟨F32.fin 0, F32.fin 0⟩) ∧
    (∀ (v : MeshVertex) (u : Vec2), v.uv = some u → (uploadVertex v).1.uv = ⟨u.x, u.y.neg⟩) ∧
    (∀ v : MeshVertex, v.normal = none → (uploadVertex v).1.n = ⟨F32.fin 0, F32.fin 0, F32.fin 0⟩) := by
  refine ⟨uploadVertices_fst, ?_, ?_, ?_, ?_, ?_, ?_⟩
  · intro vs
    rw [uploadVertices_fst, List.length_map]
  · intro v
    rfl
  · intro v h
    simp [uploadVertex, h, Tangents.nans]
  · intro v h
    simp [uploadVertex, h, F32.neg]
  · intro v u h
    simp [uploadVertex, h]
  · intro v h
    simp [uploadVertex, h]

/-- C6 witness: the upload theorem applied at a concrete two-vertex mesh
(one full vertex, one missing every optional attribute). -/
theorem upload_one_record_per_vertex_witness :
    ((uploadVertices [mvFull, mvAllMissing]).1
        = [mvFull, mvAllMissing].map fun v => (uploadVertex v).1) ∧
    (uploadVertices [mvFull, mvAllMissing]).1.length = 2 ∧
    (uploadVertex mvAllMissing).1.pos = mvAllMissing.pos ∧
    (mvAllMissing.tangents = none ∧ (uploadVertex mvAllMissing).1.t = ⟨F32.nan, F32.nan, F32.nan⟩) ∧
    (mvAllMissing.uv = none ∧ (uploadVertex mvAllMissing).1.uv = ⟨F32.fin 0, F32.fin 0⟩) ∧
    (mvFull.uv = some ⟨F32.fin 0, F32.fin 0⟩ ∧
      (uploadVertex mvFull).1.uv = ⟨(⟨F32.fin 0, F32.fin 0⟩ : Vec2).x, (⟨F32.fin 0, F32.fin 0⟩ : Vec2).y.neg⟩) ∧
    (mvAllMissing.normal = none ∧ (uploadVertex mvAllMissing).1.n = ⟨F32.fin 0, F32.fin 0, F32.fin 0⟩) :=
  ⟨upload_one_record_per_vertex.1 [mvFull, mvAllMissing],
    upload_one_record_per_vertex.2.1 [mvFull, mvAllMissing],
    upload_one_record_per_vertex.2.2.1 mvAllMissing,
    ⟨rfl, upload_one_record_per_vertex.2.2.2.1 mvAllMissing rfl⟩,
    ⟨rfl, upload_one_record_per_vertex.2.2.2.2.1 mvAllMissing rfl⟩,
    ⟨rfl, upload_one_record_per_vertex.2.2.2.2.2.1 mvFull ⟨F32.fin 0, F32.fin 0⟩ rfl⟩,
    ⟨rfl, upload_one_record_per_vertex.2.2.2.2.2.2 mvAllMissing rfl⟩⟩

/-- C3 counterexample: with a successfully loaded program and OBJ whose
meshes contain no mesh matching the selected material index, `Dice::new`
aborts through the `expect` panic path and does not return an error value
to the caller. -/
theorem construction_missing_mesh_cex :
    Dice.new (Except.ok exProgram) (Except.ok imNoMatch) exLoadTex
      = NewResult.panicked "expected obj file to contain a mesh" ∧
    (Dice.new (Except.ok exProgram) (Except.ok imNoMatch) exLoadTex).isErr = false := by
  exact ⟨rfl, rfl⟩

/-- C3 (amended): when no imported mesh matches the selected material index,
entity construction aborts with the panic message "expected obj file to
contain a mesh" instead of returning a failure result. -/
theorem construction_missing_mesh_panics
    (prog : Program) (im : ImportedModels) (lt : String → Except String Texture)
    (h : ∀ m ∈ im.meshes, m.materialIndex ≠ im.materials.head?.map fun _ => 0) :
    Dice.new (Except.ok prog) (Except.ok im) lt
      = NewResult.panicked "expected obj file to contain a mesh" := by
  have hfil : (im.meshes.filter fun model => model.materialIndex == im.materials.head?.map fun _ => 0) = [] := by
    rw [List.filter_eq_nil_iff]
    intro m hm
    simpa using h m hm
  simp [Dice.new, hfil]

/-- C3 witness: the amended panic theorem applied at a concrete import
holding one material and one mesh referring to a different material index. -/
theorem construction_missing_mesh_panics_witness :
    (∀ m ∈ imNoMatch2.meshes, m.materialIndex ≠ imNoMatch2.materials.head?.map fun _ => 0) ∧
    Dice.new (Except.ok exProgram) (Except.ok imNoMatch2) exLoadTex
      = NewResult.panicked "expected obj file to contain a mesh" :=
  ⟨by decide, construction_missing_mesh_panics exProgram imNoMatch2 exLoadTex (by decide)⟩

theorem mkSelectable_pose (vb : List GpuVertex) (iso : Iso) :
    (mkSelectable vb iso).map SelectableAABB.isometry = none ∨
    (mkSelectable vb iso).map SelectableAABB.isometry = some iso := by
  simp only [mkSelectable]
  split
  · right; rfl
  · left; rfl

/-- C7: a matching mesh with an empty vertex set constructs an entity with
no selectable volume, the entity still renders (a draw call with the mesh's
index count at the identity pose), and any update on a volume-free entity
returns it unchanged with no effects. -/
theorem empty_mesh_no_volume (prog : Program) (im : ImportedModels)
    (lt : String → Except String Texture) (mesh : Mesh)
    (hm : (im.meshes.filter fun model => model.materialIndex == im.materials.head?.map fun _ => 0).head? = some mesh)
    (hv : mesh.vertices = []) :
    (Dice.new (Except.ok prog) (Except.ok im) lt).selectableAabbOf = some none ∧
    (Dice.new (Except.ok prog) (Except.ok im) lt).renderOf
      = some { modelTransform := Iso.identity, indexCount := usizeAsI32 mesh.triangleIndices.length } ∧
    (∀ (d : Dice) (delta : F32), d.selectableAabb = none → d.update delta = (d, [])) := by
  refine ⟨?_, ?_, ?_⟩
  · simp [Dice.new, hm, hv, NewResult.selectableAabbOf, uploadVertices, mkSelectable, scanVertices]
  · simp [Dice.new, hm, hv, NewResult.renderOf, Dice.render]
  · intro d delta h
    have hq : d.queueLength = 0 := by simp [Dice.queueLength, h]
    rw [Dice.update, hq]
    rfl

/-- C7 witness: the empty-mesh theorem applied at a concrete import whose
only mesh has no vertices, and the update clause at a concrete volume-free
entity. -/
theorem empty_mesh_no_volume_witness :
    ((imEmptyMesh.meshes.filter fun model => model.materialIndex == imEmptyMesh.materials.head?.map fun _ => 0).head?
        = some ⟨none, [], []⟩ ∧
      (⟨none, [], []⟩ : Mesh).vertices = []) ∧
    ((Dice.new (Except.ok exProgram) (Except.ok imEmptyMesh) exLoadTex).selectableAabbOf = some none ∧
      (Dice.new (Except.ok exProgram) (Except.ok imEmptyMesh) exLoadTex).renderOf
        = some { modelTransform := Iso.identity
                 indexCount := usizeAsI32 ((⟨none, [], []⟩ : Mesh).triangleIndices).length } ∧
      exDiceNoVol.update (F32.fin 0) = (exDiceNoVol, [])) :=
  ⟨⟨by decide, rfl⟩,
    (empty_mesh_no_volume exProgram imEmptyMesh exLoadTex ⟨none, [], []⟩ (by decide) rfl).1,
    (empty_mesh_no_volume exProgram imEmptyMesh exLoadTex ⟨none, [], []⟩ (by decide) rfl).2.1,
    (empty_mesh_no_volume exProgram imEmptyMesh exLoadTex ⟨none, [], []⟩ (by decide) rfl).2.2 exDiceNoVol (F32.fin 0) rfl⟩

/-- C10: after a successful construction the entity's transform is the
identity isometry, the debug overlay is registered at that same identity
pose, and the bounding volume, when one exists, is registered at the
identity pose as well. -/
theorem new_initial_pose_identity (p : Except ConstructErr Program)
    (o : Except ConstructErr ImportedModels) (lt : String → Except String Texture)
    (h : (Dice.new p o lt).isOk = true) :
    (Dice.new p o lt).transformOf = some Iso.identity ∧
    (Dice.new p o lt).overlayPoseOf = some Iso.identity ∧
    ((Dice.new p o lt).selectablePoseOf = none ∨
      (Dice.new p o lt).selectablePoseOf = some Iso.identity) := by
  cases p with
  | error e => simp [Dice.new, NewResult.isOk] at h
  | ok prog =>
    cases o with
    | error e => simp [Dice.new, NewResult.isOk] at h
    | ok im =>
      cases hm : (im.meshes.filter fun model => model.materialIndex == im.materials.head?.map fun _ => 0).head? with
      | none => simp [Dice.new, hm, NewResult.isOk] at h
      | some mesh =>
        refine ⟨?_, ?_, ?_⟩
        · simp [Dice.new, hm, NewResult.transformOf]
        · simp [Dice.new, hm, NewResult.overlayPoseOf]
        · rcases mkSelectable_pose (uploadVertices mesh.vertices).1 Iso.identity with h1 | h1
          · left
            simp [Dice.new, hm, NewResult.selectablePoseOf, h1]
          · right
            simp [Dice.new, hm, NewResult.selectablePoseOf, h1]

/-- C10 witness: the initial-pose theorem applied at a concrete successful
construction over the three-vertex triangle import. -/
theorem new_initial_pose_identity_witness :
    (Dice.new (Except.ok exProgram) (Except.ok imTriangle) exLoadTex).isOk = true ∧
    (Dice.new (Except.ok exProgram) (Except.ok imTriangle) exLoadTex).transformOf = some Iso.identity ∧
    (Dice.new (Except.ok exProgram) (Except.ok imTriangle) exLoadTex).overlayPoseOf = some Iso.identity ∧
    ((Dice.new (Except.ok exProgram) (Except.ok imTriangle) exLoadTex).selectablePoseOf = none ∨
      (Dice.new (Except.ok exProgram) (Except.ok imTriangle) exLoadTex).selectablePoseOf = some Iso.identity) :=
  ⟨by decide,
    (new_initial_pose_identity _ _ _ (by decide)).1,
    (new_initial_pose_identity _ _ _ (by decide)).2.1,
    (new_initial_pose_identity _ _ _ (by decide)).2.2⟩

theorem update_min_fin (q r : ℚ) :
    update_min (some (F32.fin q)) (F32.fin r) = some (F32.fin (min q r)) := by
  by_cases h : r < q
  · simp [update_min, F32.lt, h, min_eq_right (le_of_lt h)]
  · simp [update_min, F32.lt, h, min_eq_left (le_of_not_lt h)]

theorem update_max_fin (q r : ℚ) :
    update_max (some (F32.fin q)) (F32.fin r) = some (F32.fin (max q r)) := by
  by_cases h : r > q
  · simp [update_max, F32.gt, h, max_eq_right (le_of_lt h)]
  · simp [update_max, F32.gt, h, max_eq_left (le_of_not_lt h)]

theorem foldl_update_min_fins (qs : List ℚ) : ∀ (q : ℚ),
    List.foldl update_min (some (F32.fin q)) (qs.map F32.fin)
      = some (F32.fin (qs.foldl min q)) := by
  induction qs with
  | nil => intro q; rfl
  | cons r rest ih =>
    intro q
    simp only [List.map_cons, List.foldl_cons, update_min_fin]
    exact ih (min q r)

theorem foldl_update_max_fins (qs : List ℚ) : ∀ (q : ℚ),
    List.foldl update_max (some (F32.fin q)) (qs.map F32.fin)
      = some (F32.fin (qs.foldl max q)) := by
  induction qs with
  | nil => intro q; rfl
  | cons r rest ih =>
    intro q
    simp only [List.map_cons, List.foldl_cons, update_max_fin]
    exact ih (max q r)

theorem foldl_min_le_start (qs : List ℚ) : ∀ (q : ℚ), qs.foldl min q ≤ q := by
  induction qs with
  | nil => intro q; exact le_refl q
  | cons r rest ih =>
    intro q
    exact le_trans (ih (min q r)) (min_le_left q r)

theorem foldl_min_le_mem (qs : List ℚ) : ∀ (q r : ℚ), r ∈ qs → qs.foldl min q ≤ r := by
  induction qs with
  | nil => intro q r h; exact absurd h (List.not_mem_nil r)
  | cons x rest ih =>
    intro q r h
    rcases List.mem_cons.mp h with h1 | h1
    · subst h1
      exact le_trans (foldl_min_le_start rest (min q r)) (min_le_right q r)
    · exact ih (min q x) r h1

theorem foldl_max_ge_start (qs : List ℚ) : ∀ (q : ℚ), q ≤ qs.foldl max q := by
  induction qs with
  | nil => intro q; exact le_refl q
  | cons r rest ih =>
    intro q
    exact le_trans (le_max_left q r) (ih (max q r))

theorem foldl_max_ge_mem (qs : List ℚ) : ∀ (q r : ℚ), r ∈ qs → r ≤ qs.foldl max q := by
  induction qs with
  | nil => intro q r h; exact absurd h (List.not_mem_nil r)
  | cons x rest ih =>
    intro q r h
    rcases List.mem_cons.mp h with h1 | h1
    · subst h1
      exact le_trans (le_max_right q r) (foldl_max_ge_start rest (max q r))
    · exact ih (max q x) r h1

theorem scan_minX (vs : List GpuVertex) : ∀ (acc : MinMaxAcc),
    (List.foldl scanStep acc vs).minX
      = List.foldl update_min acc.minX (vs.map fun v => v.pos.x) := by
  induction vs with
  | nil => intro acc; rfl
  | cons v rest ih =>
    intro acc
    simp only [List.foldl_cons, List.map_cons, ih (scanStep acc v)]
    rfl

theorem scan_minY (vs : List GpuVertex) : ∀ (acc : MinMaxAcc),
    (List.foldl scanStep acc vs).minY
      = List.foldl update_min acc.minY (vs.map fun v => v.pos.y) := by
  induction vs with
  | nil => intro acc; rfl
  | cons v rest ih =>
    intro acc
    simp only [List.foldl_cons, List.map_cons, ih (scanStep acc v)]
    rfl

theorem scan_minZ (vs : List GpuVertex) : ∀ (acc : MinMaxAcc),
    (List.foldl scanStep acc vs).minZ
      = List.foldl update_min acc.minZ (vs.map fun v => v.pos.z) := by
  induction vs with
  | nil => intro acc; rfl
  | cons v rest ih =>
    intro acc
    simp only [List.foldl_cons, List.map_cons, ih (scanStep acc v)]
    rfl

theorem scan_maxX (vs : List GpuVertex) : ∀ (acc : MinMaxAcc),
    (List.foldl scanStep acc vs).maxX
      = List.foldl update_max acc.maxX (vs.map fun v => v.pos.x) := by
  induction vs with
  | nil => intro acc; rfl
  | cons v rest ih =>
    intro acc
    simp only [List.foldl_cons, List.map_cons, ih (scanStep acc v)]
    rfl

theorem scan_maxY (vs : List GpuVertex) : ∀ (acc : MinMaxAcc),
    (List.foldl scanStep acc vs).maxY
      = List.foldl update_max acc.maxY (vs.map fun v => v.pos.y) := by
  induction vs with
  | nil => intro acc; rfl
  | cons v rest ih =>
    intro acc
    simp only [List.foldl_cons, List.map_cons, ih (scanStep acc v)]
    rfl

theorem scan_maxZ (vs : List GpuVertex) : ∀ (acc : MinMaxAcc),
    (List.foldl scanStep acc vs).maxZ
      = List.foldl update_max acc.maxZ (vs.map fun v => v.pos.z) := by
  induction vs with
  | nil => intro acc; rfl
  | cons v rest ih =>
    intro acc
    simp only [List.foldl_cons, List.map_cons, ih (scanStep acc v)]
    rfl

theorem all_finite_exists_fins (l : List F32) (h : ∀ x ∈ l, x.isFinite = true) :
    ∃ qs : List ℚ, l = qs.map F32.fin := by
  induction l with
  | nil => exact ⟨[], rfl⟩
  | cons x rest ih =>
    obtain ⟨qs, hqs⟩ := ih fun y hy => h y (List.mem_cons_of_mem x hy)
    cases x with
    | nan =>
      exfalso
      have := h F32.nan (List.mem_cons_self _ _)
      simp [F32.isFinite] at this
    | fin q =>
      exact ⟨q :: qs, by simp [hqs]⟩

theorem axis_extrema (f : GpuVertex → F32) (v0 : GpuVertex) (vrest : List GpuVertex)
    (hf : ∀ v ∈ v0 :: vrest, (f v).isFinite = true) :
    ∃ (q0 : ℚ) (qs : List ℚ),
      f v0 = F32.fin q0 ∧ vrest.map f = qs.map F32.fin ∧
      List.foldl update_min none ((v0 :: vrest).map f) = some (F32.fin (qs.foldl min q0)) ∧
      List.foldl update_max none ((v0 :: vrest).map f) = some (F32.fin (qs.foldl max q0)) := by
  have h0 : (f v0).isFinite = true := hf v0 (List.mem_cons_self _ _)
  cases hv0 : f v0 with
  | nan =>
    exfalso
    rw [hv0] at h0
    simp [F32.isFinite] at h0
  | fin q0 =>
    obtain ⟨qs, hqs⟩ := all_finite_exists_fins (vrest.map f) (by
      intro x hx
      obtain ⟨v, hv, rfl⟩ := List.mem_map.mp hx
      exact hf v (List.mem_cons_of_mem _ hv))
    refine ⟨q0, qs, rfl, hqs, ?_, ?_⟩
    · simp only [List.map_cons, List.foldl_cons, hv0, hqs]
      exact foldl_update_min_fins qs q0
    · simp only [List.map_cons, List.foldl_cons, hv0, hqs]
      exact foldl_update_max_fins qs q0

theorem axis_mem_bounds (q0 : ℚ) (qs : List ℚ) (x : F32)
    (hx : x = F32.fin q0 ∨ x ∈ qs.map F32.fin) :
    F32.le (F32.fin (qs.foldl min q0)) x = true ∧
    F32.le x (F32.fin (qs.foldl max q0)) = true := by
  rcases hx with h | h
  · subst h
    constructor
    · simp only [F32.le, decide_eq_true_eq]
      exact foldl_min_le_start qs q0
    · simp only [F32.le, decide_eq_true_eq]
      exact foldl_max_ge_start qs q0
  · obtain ⟨r, hr, rfl⟩ := List.mem_map.mp h
    constructor
    · simp only [F32.le, decide_eq_true_eq]
      exact foldl_min_le_mem qs q0 r hr
    · simp only [F32.le, decide_eq_true_eq]
      exact foldl_max_ge_mem qs q0 r hr

/-- C5 counterexample: a non-empty uploaded vertex set whose single vertex
has a NaN x position still constructs a bounding volume, but that volume
violates `min <= max` on the x axis (IEEE comparisons with NaN are false)
and does not contain the vertex's own position. -/
theorem aabb_nan_position_cex :
    (mkSelectable (uploadVertices [mvNanPos]).1 Iso.identity).isSome = true ∧
    minsLeMaxs (mkSelectable (uploadVertices [mvNanPos]).1 Iso.identity) = false ∧
    posInBox (mkSelectable (uploadVertices [mvNanPos]).1 Iso.identity)
      (uploadVertex mvNanPos).1.pos = false := by
  decide

/-- C5 (amended: restricted to vertex sets whose positions are all finite,
since a NaN position defeats the running extrema, see the counterexample):
for every non-empty uploaded vertex set with finite positions the
constructed bounding volume exists, satisfies `min <= max` on every axis,
and contains every vertex position component-wise; and the three-vertex
mesh (0,0,0), (1,0,0), (0,1,0) with full attributes yields exactly the box
with min (0,0,0) and max (1,1,0). -/
theorem aabb_bounds_contain_vertices (v0 : GpuVertex) (vrest : List GpuVertex) (iso : Iso)
    (hf : ∀ v ∈ v0 :: vrest,
      v.pos.x.isFinite = true ∧ v.pos.y.isFinite = true ∧ v.pos.z.isFinite = true) :
    ((mkSelectable (v0 :: vrest) iso).isSome = true ∧
      minsLeMaxs (mkSelectable (v0 :: vrest) iso) = true ∧
      ((v0 :: vrest).all fun v => posInBox (mkSelectable (v0 :: vrest) iso) v.pos) = true) ∧
    mkSelectable (uploadVertices [mvFull, mvB, mvC]).1 Iso.identity
      = some { aabb := { mins := ⟨F32.fin 0, F32.fin 0, F32.fin 0⟩
                         maxs := ⟨F32.fin 1, F32.fin 1, F32.fin 0⟩ }
               isometry := Iso.identity
               pendingActions := [] } := by
  constructor
  case right => decide
  obtain ⟨qx, qsx, hx0, hxs, hxmin, hxmax⟩ :=
    axis_extrema (fun v => v.pos.x) v0 vrest (fun v hv => (hf v hv).1)
  obtain ⟨qy, qsy, hy0, hys, hymin, hymax⟩ :=
    axis_extrema (fun v => v.pos.y) v0 vrest (fun v hv => (hf v hv).2.1)
  obtain ⟨qz, qsz, hz0, hzs, hzmin, hzmax⟩ :=
    axis_extrema (fun v => v.pos.z) v0 vrest (fun v hv => (hf v hv).2.2)
  have h1 : (scanVertices (v0 :: vrest)).minX = some (F32.fin (qsx.foldl min qx)) := by
    rw [scanVertices, scan_minX]
    exact hxmin
  have h2 : (scanVertices (v0 :: vrest)).minY = some (F32.fin (qsy.foldl min qy)) := by
    rw [scanVertices, scan_minY]
    exact hymin
  have h3 : (scanVertices (v0 :: vrest)).minZ = some (F32.fin (qsz.foldl min qz)) := by
    rw [scanVertices, scan_minZ]
    exact hzmin
  have h4 : (scanVertices (v0 :: vrest)).maxX = some (F32.fin (qsx.foldl max qx)) := by
    rw [scanVertices, scan_maxX]
    exact hxmax
  have h5 : (scanVertices (v0 :: vrest)).maxY = some (F32.fin (qsy.foldl max qy)) := by
    rw [scanVertices, scan_maxY]
    exact hymax
  have h6 : (scanVertices (v0 :: vrest)).maxZ = some (F32.fin (qsz.foldl max qz)) := by
    rw [scanVertices, scan_maxZ]
    exact hzmax
  have hsel : mkSelectable (v0 :: vrest) iso
      = some { aabb := { mins := ⟨F32.fin (qsx.foldl min qx), F32.fin (qsy.foldl min qy), F32.fin (qsz.foldl min qz)⟩
                         maxs := ⟨F32.fin (qsx.foldl max qx), F32.fin (qsy.foldl max qy), F32.fin (qsz.foldl max qz)⟩ }
               isometry := iso
               pendingActions := [] } := by
    simp only [mkSelectable, h1, h2, h3, h4, h5, h6, AABB.new]
  refine ⟨?_, ?_, ?_⟩
  · rw [hsel]
    rfl
  · rw [hsel]
    simp only [minsLeMaxs, Bool.and_eq_true, and_assoc, F32.le, decide_eq_true_eq]
    exact ⟨le_trans (foldl_min_le_start qsx qx) (foldl_max_ge_start qsx qx),
      le_trans (foldl_min_le_start qsy qy) (foldl_max_ge_start qsy qy),
      le_trans (foldl_min_le_start qsz qz) (foldl_max_ge_start qsz qz)⟩
  · rw [List.all_eq_true]
    intro v hv
    have hvx : v.pos.x = F32.fin qx ∨ v.pos.x ∈ qsx.map F32.fin := by
      rcases List.mem_cons.mp hv with h | h
      · subst h
        left
        exact hx0
      · right
        rw [← hxs]
        exact List.mem_map_of_mem _ h
    have hvy : v.pos.y = F32.fin qy ∨ v.pos.y ∈ qsy.map F32.fin := by
      rcases List.mem_cons.mp hv with h | h
      · subst h
        left
        exact hy0
      · right
        rw [← hys]
        exact List.mem_map_of_mem _ h
    have hvz : v.pos.z = F32.fin qz ∨ v.pos.z ∈ qsz.map F32.fin := by
      rcases List.mem_cons.mp hv with h | h
      · subst h
        left
        exact hz0
      · right
        rw [← hzs]
        exact List.mem_map_of_mem _ h
    obtain ⟨hminx, hmaxx⟩ := axis_mem_bounds qx qsx v.pos.x hvx
    obtain ⟨hminy, hmaxy⟩ := axis_mem_bounds qy qsy v.pos.y hvy
    obtain ⟨hminz, hmaxz⟩ := axis_mem_bounds qz qsz v.pos.z hvz
    rw [hsel]
    simp only [posInBox, Bool.and_eq_true, and_assoc]
    exact ⟨hminx, hmaxx, hminy, hmaxy, hminz, hmaxz⟩

/-- C5 witness: the bounds theorem applied at a concrete two-vertex uploaded
set with finite positions. -/
theorem aabb_bounds_contain_vertices_witness :
    ([(uploadVertex mvFull).1, (uploadVertex mvB).1].all fun v =>
        v.pos.x.isFinite && v.pos.y.isFinite && v.pos.z.isFinite) = true ∧
    ((mkSelectable [(uploadVertex mvFull).1, (uploadVertex mvB).1] isoA).isSome = true ∧
      minsLeMaxs (mkSelectable [(uploadVertex mvFull).1, (uploadVertex mvB).1] isoA) = true ∧
      ([(uploadVertex mvFull).1, (uploadVertex mvB).1].all fun v =>
        posInBox (mkSelectable [(uploadVertex mvFull).1, (uploadVertex mvB).1] isoA) v.pos) = true) :=
  ⟨by decide,
    (aabb_bounds_contain_vertices (uploadVertex mvFull).1 [(uploadVertex mvB).1] isoA (by decide)).1⟩
